import Mathlib

/-!
Verification of Blapy2 core behaviors against a shallow embedding.

The embedding models:
* JSON values (`JVal`) as they appear after `JSON.parse`/`JSON5.parse`;
* `Utils.utoa` / `Utils.atou` (src/core/Utils.js) over lists of code points,
  including faithful models of `btoa`, `atob`, `TextEncoder.encode` and
  `decodeURIComponent`;
* the JSON transform pipeline of `TemplateManager`
  (`getObjects`, `_applyInitSearch`, `_applyProcessDataFunctions`,
  `_addBlapyIndices`);
* the `json-append` array merge of `BlapyBlock`'s `ProcessPageChange.pageLoaded`
  handler;
* the constructor validation of the `Blapy` class;
* the per-container merge dispatch (`pageLoaded`) over a DOM-fragment model,
  with the browser DOM / HTML parser / JSON parser / template engine treated
  as collaborator parameters;
* `Blapy.embedHTMLPage`.
-/

namespace Blapy2

/-! ## JSON value model -/

mutual

/-- A JSON value as produced by `JSON.parse` / `JSON5.parse`.
Numbers are modelled as integers (all datasets in the claims are
integral); object fields keep their textual order, as JavaScript objects
do for string keys.  Arrays and objects carry their own list types
(`JArr`, `JObj`) so that all recursion over values is structural. -/
inductive JVal where
  | null
  | bool (b : Bool)
  | num (n : Int)
  | str (s : String)
  | arr (xs : JArr)
  | obj (fields : JObj)

/-- The element list of a JSON array. -/
inductive JArr where
  | nil
  | cons (head : JVal) (tail : JArr)

/-- The field list of a JSON object. -/
inductive JObj where
  | nil
  | cons (key : String) (val : JVal) (tail : JObj)

end

deriving instance DecidableEq for JVal, JArr, JObj

/-- The elements of a JSON array, as a Lean list. -/
def JArr.toList : JArr → List JVal
  | .nil => []
  | .cons x xs => x :: xs.toList

/-- Build a JSON array value list from a Lean list. -/
def JArr.ofList : List JVal → JArr
  | [] => .nil
  | x :: xs => .cons x (JArr.ofList xs)

/-- The fields of a JSON object, as a Lean list. -/
def JObj.toList : JObj → List (String × JVal)
  | .nil => []
  | .cons k v fs => (k, v) :: fs.toList

/-- Build a JSON object field list from a Lean list. -/
def JObj.ofList : List (String × JVal) → JObj
  | [] => .nil
  | (k, v) :: fs => .cons k v (JObj.ofList fs)

/-- Structural equality of JSON values: two values are equal iff their
`JSON.stringify` serializations coincide (our model keeps field order, so
stringify-equality is structural equality). -/
def JVal.beq (a b : JVal) : Bool := a = b

/-- Shorthand for building an array value from a Lean list. -/
def jarr (l : List JVal) : JVal := .arr (JArr.ofList l)

/-- Shorthand for building an object value from a Lean field list. -/
def jobj (l : List (String × JVal)) : JVal := .obj (JObj.ofList l)

/-- Is the value a (JavaScript) array? -/
def JVal.isArr : JVal → Bool
  | .arr _ => true
  | _ => false

/-- JavaScript truthiness of a JSON value
(`null`, `false`, `0` and `""` are falsy; arrays and objects are truthy). -/
def jsTruthy : JVal → Bool
  | .null => false
  | .bool b => b
  | .num n => n != 0
  | .str s => s != ""
  | .arr _ => true
  | .obj _ => true

/-- `typeof v == 'object'` for a JSON value: true for `null`, arrays and
objects, false for booleans, numbers and strings. -/
def isObjectType : JVal → Bool
  | .null => true
  | .arr _ => true
  | .obj _ => true
  | _ => false

/-- Field lookup in an object (first binding wins, as JavaScript property
tables hold each key once). -/
def JObj.lookup : JObj → String → Option JVal
  | .nil, _ => none
  | .cons a b fs, k => if a = k then some b else fs.lookup k

/-- JavaScript property write `o[k] = v` on an object: overwrites in place
(keeping key order) when the key exists, otherwise appends the key.
(A property table holds each key at most once.) -/
def JObj.set : JObj → String → JVal → JObj
  | .nil, k, v => .cons k v .nil
  | .cons a b fs, k, v =>
    if a = k then .cons k v fs else .cons a b (fs.set k v)

/-- Property read `v[k]`: `undefined` (`none`) unless `v` is an object
holding the key.  (Array index / string index reads never occur with the
string keys used by the code under study.) -/
def jget : JVal → String → Option JVal
  | .obj fs, k => fs.lookup k
  | _, _ => none

/-- Truthiness of a property read (`undefined` is falsy). -/
def truthyProp : Option JVal → Bool
  | none => false
  | some v => jsTruthy v

/-! ## Utils: `utoa` / `atou` (src/core/Utils.js)

Strings are modelled as lists of Unicode code points (`List Nat`); a
JavaScript string of code units below 0x10000 is exactly such a list. -/

namespace Utils

/-- UTF-8 encoding of one Unicode scalar value, as `TextEncoder.encode`
produces it. -/
def utf8EncodeChar (c : Nat) : List Nat :=
  if c < 0x80 then [c]
  else if c < 0x800 then [0xC0 + c / 0x40, 0x80 + c % 0x40]
  else if c < 0x10000 then
    [0xE0 + c / 0x1000, 0x80 + (c / 0x40) % 0x40, 0x80 + c % 0x40]
  else
    [0xF0 + c / 0x40000, 0x80 + (c / 0x1000) % 0x40,
     0x80 + (c / 0x40) % 0x40, 0x80 + c % 0x40]

/-- `new TextEncoder().encode(s)`: the UTF-8 bytes of the string. -/
def utf8Encode (s : List Nat) : List Nat :=
  (s.map utf8EncodeChar).flatten

/-- The base64 alphabet `A-Z a-z 0-9 + /`, as character codes. -/
def base64Alphabet : List Nat :=
  (List.range 26).map (· + 65) ++ (List.range 26).map (· + 97) ++
    (List.range 10).map (· + 48) ++ [43, 47]

/-- Character code of the base64 digit for a 6-bit value. -/
def b64char (n : Nat) : Nat := base64Alphabet.getD n 0

/-- Base64-encode a byte list, 3 bytes to 4 digits, `'='` (code 61)
padding for a final partial group. -/
def btoaChunks : List Nat → List Nat
  | [] => []
  | [a] => [b64char (a / 4), b64char (a % 4 * 16), 61, 61]
  | [a, b] => [b64char (a / 4), b64char (a % 4 * 16 + b / 16),
               b64char (b % 16 * 4), 61]
  | a :: b :: c :: rest =>
      [b64char (a / 4), b64char (a % 4 * 16 + b / 16),
       b64char (b % 16 * 4 + c / 64), b64char (c % 64)] ++ btoaChunks rest

/-- `btoa`: throws (`none`) when a code unit exceeds 0xFF, otherwise
base64-encodes the code units as bytes. -/
def btoa (l : List Nat) : Option (List Nat) :=
  if l.all (· < 256) then some (btoaChunks l) else none

/-- Index of a character code in the base64 alphabet (`none` for a
character `atob` rejects). -/
def b64index (c : Nat) : Option Nat :=
  base64Alphabet.indexOf? c

/-- Decode a list of 6-bit groups into bytes: a trailing group of two
digits yields one byte, of three digits two bytes. -/
def atobSextets : List Nat → Option (List Nat)
  | [] => some []
  | [_] => none
  | [a, b] => some [a * 4 + b / 16]
  | [a, b, c] => some [a * 4 + b / 16, b % 16 * 16 + c / 4]
  | a :: b :: c :: d :: rest =>
      (atobSextets rest).map
        (fun t => (a * 4 + b / 16) :: (b % 16 * 16 + c / 4) ::
          (c % 4 * 64 + d) :: t)

/-- Strip up to two trailing `'='` padding characters. -/
def stripPadding (l : List Nat) : List Nat :=
  match l.reverse with
  | 61 :: 61 :: rest => rest.reverse
  | 61 :: rest => rest.reverse
  | _ => l

/-- `atob`: base64 decoding; `none` models the `InvalidCharacterError`
thrown on malformed input. -/
def atob (l : List Nat) : Option (List Nat) := do
  let digits := stripPadding l
  if digits.length % 4 == 1 then none
  else do
    let sextets ← digits.mapM b64index
    atobSextets sextets

/-- A hexadecimal digit character, as `decodeURIComponent` reads `%XX`
escapes. -/
def hexDigit (c : Nat) : Option Nat :=
  if 48 ≤ c ∧ c ≤ 57 then some (c - 48)
  else if 65 ≤ c ∧ c ≤ 70 then some (c - 55)
  else if 97 ≤ c ∧ c ≤ 102 then some (c - 87)
  else none

/-- First pass of `decodeURIComponent`: each `%XX` escape becomes a byte
(`Sum.inl`), every other character passes through (`Sum.inr`); a `%` not
followed by two hex digits throws (`none`). -/
def uriTokens : List Nat → Option (List (Sum Nat Nat))
  | [] => some []
  | 37 :: h :: l :: rest => do
      let hv ← hexDigit h
      let lv ← hexDigit l
      let t ← uriTokens rest
      pure (Sum.inl (hv * 16 + lv) :: t)
  | 37 :: _ => none
  | c :: rest => do
      let t ← uriTokens rest
      pure (Sum.inr c :: t)

/-- Is `b` a UTF-8 continuation byte? -/
def utf8Cont (b : Nat) : Bool := 0x80 ≤ b && b < 0xC0

/-- Second pass of `decodeURIComponent`: runs of escaped bytes are decoded
as UTF-8 (malformed sequences throw, modelled as `none`); plain characters
pass through unchanged. -/
def uriDecodeTokens : List (Sum Nat Nat) → Option (List Nat)
  | [] => some []
  | Sum.inr c :: rest => (uriDecodeTokens rest).map (c :: ·)
  | Sum.inl b :: rest =>
    if b < 0x80 then (uriDecodeTokens rest).map (b :: ·)
    else if b < 0xC0 then none
    else if b < 0xE0 then
      match rest with
      | Sum.inl b2 :: rest2 =>
          if utf8Cont b2 then
            (uriDecodeTokens rest2).map
              (((b - 0xC0) * 0x40 + (b2 - 0x80)) :: ·)
          else none
      | _ => none
    else if b < 0xF0 then
      match rest with
      | Sum.inl b2 :: Sum.inl b3 :: rest2 =>
          if utf8Cont b2 && utf8Cont b3 then
            (uriDecodeTokens rest2).map
              (((b - 0xE0) * 0x1000 + (b2 - 0x80) * 0x40 + (b3 - 0x80)) :: ·)
          else none
      | _ => none
    else if b < 0xF8 then
      match rest with
      | Sum.inl b2 :: Sum.inl b3 :: Sum.inl b4 :: rest2 =>
          if utf8Cont b2 && utf8Cont b3 && utf8Cont b4 then
            (uriDecodeTokens rest2).map
              (((b - 0xF0) * 0x40000 + (b2 - 0x80) * 0x1000 +
                (b3 - 0x80) * 0x40 + (b4 - 0x80)) :: ·)
          else none
      | _ => none
    else none

/-- `decodeURIComponent`: percent-escapes are decoded as UTF-8 bytes,
all other characters pass through; `none` models the thrown `URIError`. -/
def decodeURIComponent (l : List Nat) : Option (List Nat) :=
  (uriTokens l).bind uriDecodeTokens

/-- `Utils.utoa(data)`:
`btoa(String.fromCharCode(...new TextEncoder().encode(data)))`.
`String.fromCharCode` of bytes below 0x100 is the identity on the code
list, so the composition is `btoa` of the UTF-8 bytes. -/
def utoa (data : List Nat) : Option (List Nat) :=
  btoa (utf8Encode data)

/-- `Utils.atou(b64)`: `decodeURIComponent((atob(b64)))`. -/
def atou (b64 : List Nat) : Option (List Nat) :=
  (atob b64).bind decodeURIComponent

end Utils

/-! ## String helpers shared by the embedded functions -/

/-- JavaScript `String.prototype.split(sep)` with a non-empty string
separator: split on every non-overlapping occurrence, left to right.
Fuelled to keep the recursion structural; every step consumes at least
one character, so fuel equal to the input length always suffices. -/
def jsSplitChars (c0 : Char) (cs : List Char) :
    Nat → List Char → List Char → List (List Char)
  | _, [], cur => [cur.reverse]
  | 0, l, cur => [cur.reverse ++ l]
  | fuel + 1, c :: rest, cur =>
    if List.isPrefixOf (c0 :: cs) (c :: rest) then
      cur.reverse :: jsSplitChars c0 cs fuel (List.drop cs.length rest) []
    else
      jsSplitChars c0 cs fuel rest (c :: cur)

/-- `s.split(sep)` for a non-empty separator (empty separators are not
used by the code under study; they fall back to a single-element split). -/
def jsSplit (sep : String) (s : String) : List String :=
  match sep.data with
  | [] => [s]
  | c0 :: cs => (jsSplitChars c0 cs s.data.length s.data []).map List.asString

/-- `parseInt` on an attribute value: `none` models `NaN`
(`parseInt(null)` for a missing attribute is also `NaN`).  Leading
whitespace is skipped, an optional sign then leading decimal digits are
read; no digits means `NaN`. -/
def parseIntAttr (attr : Option String) : Option Int :=
  match attr with
  | none => none
  | some s =>
    let l := s.data.dropWhile (fun c => c = ' ' || c = '\t' || c = '\n')
    let (neg, l) := match l with
      | '-' :: rest => (true, rest)
      | '+' :: rest => (false, rest)
      | _ => (false, l)
    let digits := l.takeWhile Char.isDigit
    if digits.isEmpty then none
    else
      let n : Nat := digits.foldl (fun acc c => acc * 10 + (c.toNat - 48)) 0
      some (if neg then -(n : Int) else (n : Int))

/-! ## `json-append` merge
(src/core/BlapyBlock.js, `ProcessPageChange.pageLoaded`, json-append branch)

The merge works on `currentData` (the accumulated array parsed from
`data-blapy-json-data`) and `newJsonData` (the parsed incoming payload).
-/

/-- `Array.isArray(newJsonData) ? newJsonData : [newJsonData]`. -/
def toItems : JVal → List JVal
  | .arr xs => xs.toList
  | v => [v]

/-- `===` between two property values of items.  Primitives compare by
value.  Objects and arrays compare by reference; values coming from
independent `JSON.parse` calls (the accumulated array is re-parsed from the
serialized attribute on every merge) are always distinct references, so
composite values are modelled as never strictly equal. -/
def strictEqPrim : JVal → JVal → Bool
  | .null, .null => true
  | .bool a, .bool b => a == b
  | .num a, .num b => a == b
  | .str a, .str b => a == b
  | _, _ => false

/-- The duplicate test of the `unique` strategy:
`mergedData.some(item => item[k] && newItem[k] && item[k] === newItem[k])`. -/
def existsMatch (uniqueKey : String) (mergedData : List JVal)
    (newItem : JVal) : Bool :=
  mergedData.any (fun item =>
    truthyProp (jget item uniqueKey) && truthyProp (jget newItem uniqueKey) &&
    strictEqPrim ((jget item uniqueKey).getD .null)
      ((jget newItem uniqueKey).getD .null))

/-- The `unique`-strategy loop: push each new item unless `existsMatch`
holds against the array accumulated so far. -/
def uniqueFold (uniqueKey : String) (acc : List JVal) :
    List JVal → List JVal
  | [] => acc
  | x :: rest =>
    if existsMatch uniqueKey acc x then uniqueFold uniqueKey acc rest
    else uniqueFold uniqueKey (acc ++ [x]) rest

/-- Attribute with a `|| 'dflt'` default: the empty string is falsy. -/
def attrOr (attr : Option String) (dflt : String) : String :=
  match attr with
  | none => dflt
  | some "" => dflt
  | some s => s

/-- The strategy dispatch of the `json-append` merge (the `mergedData`
value before the max-items trim): `start` prepends the new items,
`unique` appends those passing the duplicate test, every other strategy
appends at the end. -/
def mergeJsonAppendRaw (currentData : List JVal) (newJsonData : JVal)
    (strategyAttr uniqueKeyAttr : Option String) : List JVal :=
  let appendStrategy := attrOr strategyAttr "end"
  if appendStrategy = "start" then toItems newJsonData ++ currentData
  else if appendStrategy = "unique" then
    uniqueFold (attrOr uniqueKeyAttr "id") currentData (toItems newJsonData)
  else currentData ++ toItems newJsonData

/-- The full `json-append` array merge (BlapyBlock.js lines 794-832):
strategy dispatch (`start` / `unique` / default append at the end),
then the max-items trim — `start` keeps the first `maxItems` entries
(`slice(0, maxItems)`), every other strategy keeps the last `maxItems`
entries (`slice(-maxItems)`).  `maxItems` is the `parseInt` of the
`data-blapy-json-max-items` attribute (`none` = `NaN`, which is falsy). -/
def mergeJsonAppend (currentData : List JVal) (newJsonData : JVal)
    (strategyAttr uniqueKeyAttr : Option String) (maxItems : Option Int) :
    List JVal :=
  let appendStrategy := attrOr strategyAttr "end"
  let mergedData :=
    mergeJsonAppendRaw currentData newJsonData strategyAttr uniqueKeyAttr
  match maxItems with
  | none => mergedData
  | some m =>
    if m != 0 && m > 0 && (mergedData.length : Int) > m then
      if appendStrategy = "start" then mergedData.take m.toNat
      else mergedData.drop (mergedData.length - m.toNat)
    else mergedData

/-- Number of entries of `l` whose value at key `"id"` equals `idv`
(structural equality, i.e. equality of the serialized values). -/
def countIdEq (l : List JVal) (idv : JVal) : Nat :=
  l.countP (fun e => ((jget e "id").map (JVal.beq · idv)).getD false)

/-- Is `v` a truthy primitive (a nonzero number, a non-empty string, or
`true`)?  Such values pass the `&&` guards of `existsMatch` and compare by
value under `===`. -/
def truthyPrim : JVal → Bool
  | .bool b => b
  | .num n => n != 0
  | .str s => s != ""
  | _ => false

/-! ## JSON transform pipeline (src/core/TemplateManager.js) -/

/-- `ToNumber` of a string, restricted to the integral results the
datasets under study can produce: trimmed empty string is `0`, trimmed
decimal integers convert, everything else is `NaN` (`none`). -/
def stringToNumber (s : String) : Option Int :=
  let l := s.data.dropWhile (fun c => c = ' ' || c = '\t' || c = '\n')
  let l := (l.reverse.dropWhile (fun c => c = ' ' || c = '\t' || c = '\n')).reverse
  match l with
  | [] => some 0
  | _ =>
    let (neg, digits) := match l with
      | '-' :: rest => (true, rest)
      | '+' :: rest => (false, rest)
      | _ => (false, l)
    if digits ≠ [] ∧ digits.all Char.isDigit then
      let n : Nat := digits.foldl (fun acc c => acc * 10 + (c.toNat - 48)) 0
      some (if neg then -(n : Int) else (n : Int))
    else none

/-- JavaScript loose equality `v == val` between a primitive property
value and the (string) value of a search clause; `none` is the
`undefined` produced by `item.split('==')[1]` when a clause has no `==`.
A number or boolean compares against `ToNumber` of the string; `null`
loosely equals only `undefined`.  (Composite values never reach this
comparison: the code recurses into them instead.) -/
def looseEq (v : JVal) (val : Option String) : Bool :=
  match v, val with
  | .str s, some t => s = t
  | .num n, some t => stringToNumber t = some n
  | .bool b, some t => stringToNumber t = some (if b then 1 else 0)
  | .null, none => true
  | _, _ => false

/-- The primitive-entry test of `getObjects`: does the entry `(i, v)` of
`parent` push the parent unconditionally (branch
`i == key && obj[i] == val || i == key && val == ''`)? -/
def entryHitsKey (key : String) (val : Option String) (i : String)
    (v : JVal) : Bool :=
  (i = key && looseEq v val) || (i = key && val == some "")

/-- The second primitive-entry test (`obj[i] == val && key == ''`), whose
push is guarded by the `lastIndexOf` reference check. -/
def entryHitsVal (key : String) (val : Option String) (v : JVal) : Bool :=
  looseEq v val && key == ""

mutual

/-- `TemplateManager.getObjects(obj, key, val)`: walk the own enumerable
entries of the value in order (decimal index strings for an array, keys
for an object; `for..in` over a primitive enumerates nothing relevant to
the datasets under study).  Object-typed entries (including `null`) are
recursed into, and a primitive entry pushes its *parent* when the entry's
key equals `key` and its value loosely equals `val` (or `val` is the
empty string), or — when `key` is empty — when the value matches and the
parent was not already pushed (`objects.lastIndexOf(obj) == -1`, a
reference test, modelled by the `pushed` flag of the loop state). -/
def getObjects (key : String) (val : Option String) : JVal → List JVal
  | .arr xs => goArr key val (.arr xs) 0 xs false
  | .obj fs => goObj key val (.obj fs) fs false
  | _ => []

/-- The `for (let i in obj)` loop of `getObjects` over an array: the
enumerated keys are the decimal index strings. -/
def goArr (key : String) (val : Option String) (parent : JVal) :
    Nat → JArr → Bool → List JVal
  | _, .nil, _ => []
  | i, .cons v rest, pushed =>
    if isObjectType v then
      getObjects key val v ++ goArr key val parent (i + 1) rest pushed
    else if entryHitsKey key val (toString i) v then
      parent :: goArr key val parent (i + 1) rest true
    else if entryHitsVal key val v then
      (if pushed then goArr key val parent (i + 1) rest pushed
       else parent :: goArr key val parent (i + 1) rest true)
    else goArr key val parent (i + 1) rest pushed

/-- The `for (let i in obj)` loop of `getObjects` over an object: the
enumerated keys are the object's own keys in order. -/
def goObj (key : String) (val : Option String) (parent : JVal) :
    JObj → Bool → List JVal
  | .nil, _ => []
  | .cons i v rest, pushed =>
    if isObjectType v then
      getObjects key val v ++ goObj key val parent rest pushed
    else if entryHitsKey key val i v then
      parent :: goObj key val parent rest true
    else if entryHitsVal key val v then
      (if pushed then goObj key val parent rest pushed
       else parent :: goObj key val parent rest true)
    else goObj key val parent rest pushed

end

/-- Deduplication by serialized value, keeping first occurrences:
`filter((thing, index) => index === findIndex(obj =>
JSON.stringify(obj) === JSON.stringify(thing)))`. -/
def dedupByStringify (l : List JVal) : List JVal :=
  (l.enum.filter
      (fun p => l.findIdx (fun y => JVal.beq y p.2) = p.1)).map Prod.snd

/-- `TemplateManager._applyInitSearch`: when the
`data-blapy-template-init-search` attribute is set and non-empty, split
it on commas, split each clause on `==`, collect `getObjects` results for
every clause whose result is non-empty, and deduplicate by serialized
value, preserving first-seen order.  The result is a (JavaScript) array. -/
def applyInitSearch (jsonDataObj : JVal) (initSearch : Option String) :
    JVal :=
  match initSearch with
  | none => jsonDataObj
  | some "" => jsonDataObj
  | some s =>
    let reduced := ((jsSplit "," s).map (jsSplit "==")).foldl
      (fun acc item =>
        let founds := getObjects (item.headD "") item[1]? jsonDataObj
        if founds.length ≠ 0 then acc ++ founds else acc) []
    .arr (JArr.ofList (dedupByStringify reduced))

/-- A value of the `_applyProcessDataFunctions` pipeline: either a JSON
value, or the `jsonFeatures` parser object (`JSON` / `JSON5`) that the
source stores in `previousJsonDataObj`. -/
inductive PipeVal where
  | data (v : JVal)
  | parserRef
deriving DecidableEq

/-- `typeof v !== 'object'` test of the pipeline value: the parser object
is an object; a JSON value is an object when it is `null`, an array or an
object. -/
def pipeIsObject : PipeVal → Bool
  | .data v => isObjectType v
  | .parserRef => true

/-- One iteration of the `_applyProcessDataFunctions` loop: the source
saves `previousJsonDataObj = jsonFeatures` (the parser object, not the
dataset), applies the named global function when it exists (otherwise an
error is logged and the value is untouched), and when the resulting value
is not object-typed logs an error and assigns
`jsonDataObj = previousJsonDataObj` — the parser object. -/
def processDataStep (env : String → Option (PipeVal → PipeVal))
    (cur : PipeVal) (name : String) : PipeVal :=
  let afterEval :=
    match env name with
    | some f => f cur
    | none => cur
  if pipeIsObject afterEval then afterEval else PipeVal.parserRef

/-- `TemplateManager._applyProcessDataFunctions`: when the
`data-blapy-template-init-processdata` attribute is set and non-empty,
fold the comma-separated function names over the dataset. -/
def applyProcessDataFunctions (env : String → Option (PipeVal → PipeVal))
    (attr : Option String) (v : PipeVal) : PipeVal :=
  match attr with
  | none => v
  | some "" => v
  | some s => (jsSplit "," s).foldl (processDataStep env) v

/-- Does `x == undefined` hold for a property read (loose equality:
true for `undefined` and `null`)? -/
def isNullOrUndef : Option JVal → Bool
  | none => true
  | some .null => true
  | some _ => false

/-- Annotation of one array element by `_addBlapyIndices`: objects get
`blapyIndex = i + 1` when it is `undefined`/`null`, `blapyFirst = true`
at index 0 and `blapyLast = true` at the last index (unconditionally).
Property writes on an array element are legal but invisible to JSON
serialization, so arrays pass through; writes on primitives or `null`
throw a `TypeError` in strict mode (`none`). -/
def annotateElem (len i : Nat) : JVal → Option JVal
  | .obj fs =>
    let fs1 := if isNullOrUndef (fs.lookup "blapyIndex") then
        fs.set "blapyIndex" (.num (i + 1)) else fs
    let fs2 := if i = 0 then fs1.set "blapyFirst" (.bool true) else fs1
    let fs3 := if i = len - 1 then fs2.set "blapyLast" (.bool true)
      else fs2
    some (.obj fs3)
  | .arr xs => some (.arr xs)
  | _ => none

/-- The element loop of `_addBlapyIndices`. -/
def annotateList (len : Nat) : Nat → List JVal → Option (List JVal)
  | _, [] => some []
  | i, x :: rest => do
      let x1 ← annotateElem len i x
      let r ← annotateList len (i + 1) rest
      pure (x1 :: r)

/-- `TemplateManager._addBlapyIndices(jsonDataObj)`: when
`jsonDataObj.length` is truthy (a non-empty array) every element is
annotated in place; otherwise (`else` branch) `jsonDataObj.blapyIndex = 0`
is written on the value itself — an object gains the field, a named
property on an empty array is invisible to JSON serialization, and the
write throws on primitives (strict mode).  Objects carrying a truthy
`length` field of their own would take the array path and throw on their
missing indexed properties; they are modelled as the thrown case. -/
def addBlapyIndices : JVal → Option JVal
  | .arr xs =>
    (match xs.toList with
     | [] => some (.arr xs)
     | x :: rest =>
       (annotateList (rest.length + 1) 0 (x :: rest)).map
         (fun ys => .arr (JArr.ofList ys)))
  | .obj fs =>
    (match fs.lookup "length" with
     | some lv => if jsTruthy lv then none
         else some (.obj (fs.set "blapyIndex" (.num 0)))
     | none => some (.obj (fs.set "blapyIndex" (.num 0))))
  | _ => none

/-! ## `Blapy` constructor validation (src/core/Blapy2.js)

The constructor's element validation is modelled as a function into
`Except String`, where `Except.error msg` is a thrown `Error(msg)` that
propagates to the caller: neither `createBlapy` nor the
`HTMLElement.prototype.Blapy` shim of Compatibility.js wraps the
construction in a `try`/`catch`. -/

/-- A DOM element, reduced to the datum the validation reads. -/
structure DomElement where
  id : String
deriving DecidableEq, Repr

/-- The `element` argument of `new Blapy(element, options)`. -/
inductive BlapyArg where
  /-- `null`, `undefined`, `''` or another falsy value. -/
  | nullish
  /-- a selector string, resolved through `document.querySelector`. -/
  | selector (s : String)
  /-- a truthy value that is not a string and not an `HTMLElement`. -/
  | nonElement
  /-- an `HTMLElement`. -/
  | elem (e : DomElement)
deriving DecidableEq, Repr

/-- The validation prefix of the `Blapy` constructor:
`throw` on a falsy element, on a selector with no match, on a
non-`HTMLElement`, and on an element whose `id` is empty. -/
def blapyConstructorValidate (querySelector : String → Option DomElement) :
    BlapyArg → Except String DomElement
  | .nullish => .error "Blapy needs a valid DOM element"
  | .nonElement => .error "Blapy needs a valid DOM element"
  | .selector s =>
    match querySelector s with
    | none => .error ("Element not found: " ++ s)
    | some e =>
      if e.id = "" then .error "Blapy needs an element with an ID"
      else .ok e
  | .elem e =>
    if e.id = "" then .error "Blapy needs an element with an ID"
    else .ok e

/-- The three configuration-error situations named by the claim: a missing
root element, an element that cannot be found, or an element without an
id. -/
def configErrorArg (querySelector : String → Option DomElement)
    (arg : BlapyArg) : Prop :=
  arg = .nullish ∨
  (∃ s, arg = .selector s ∧ querySelector s = none) ∨
  (∃ s e, arg = .selector s ∧ querySelector s = some e ∧ e.id = "") ∨
  (∃ e, arg = .elem e ∧ e.id = "")

/-! ## Merge engine (src/core/BlapyBlock.js, `ProcessPageChange.pageLoaded`)

A live container is a flat record of the attributes and content the merge
reads and writes (the handler iterates a static snapshot of
`querySelectorAll('[data-blapy-container]')`).  The fetched fragment is a
forest of DOM nodes.  Browser primitives (CSS selection of the
`xmp.blapybin` child, HTML parsing for `innerHTML` assignment), the JSON
parser (`JSON`/`JSON5`), `JSON.stringify`, the template pipeline entry
point `templateManager.processJsonUpdate` and animation-plugin functions
are collaborator parameters: every theorem below holds for all of them. -/

/-- The attributes and content of one Blapy container element. -/
structure Container where
  /-- `data-blapy-container-name` -/
  name : Option String := none
  /-- `data-blapy-container-content` (the fingerprint) -/
  content : Option String := none
  /-- `data-blapy-update` -/
  update : Option String := none
  /-- `data-blapy-update-rule` -/
  updateRule : Option String := none
  /-- `data-blapy-applyon` -/
  applyon : Option String := none
  /-- `data-blapy-container-force-update` -/
  forceUpdateAttr : Option String := none
  /-- `data-blapy-json-data` -/
  jsonDataAttr : Option String := none
  /-- `data-blapy-json-append-strategy` -/
  appendStrategyAttr : Option String := none
  /-- `data-blapy-json-unique-key` -/
  uniqueKeyAttr : Option String := none
  /-- `data-blapy-json-max-items` -/
  maxItemsAttr : Option String := none
  /-- `data-blapy-template-init-purejson` -/
  pureJsonAttr : Option String := none
  /-- the element id (`""` = absent) -/
  id : String := ""
  /-- the serialized inner content -/
  innerHTML : String := ""
deriving DecidableEq, Repr

mutual

/-- A node of the fetched fragment: its container attributes and its
child elements.  Nodes carry their own forest type so that all recursion
is structural. -/
inductive DomNode where
  | mk (c : Container) (children : DomForest)

/-- A forest of fragment nodes (the children of a node, or the parsed
top-level fragment). -/
inductive DomForest where
  | nil
  | cons (head : DomNode) (tail : DomForest)

end

deriving instance DecidableEq for DomNode, DomForest

/-- The container record of a node. -/
def DomNode.container : DomNode → Container
  | .mk c _ => c

/-- The children of a node. -/
def DomNode.children : DomNode → DomForest
  | .mk _ kids => kids

/-- Concatenation of forests. -/
def DomForest.append : DomForest → DomForest → DomForest
  | .nil, ys => ys
  | .cons x xs, ys => .cons x (xs.append ys)

instance : Append DomForest := ⟨DomForest.append⟩

/-- Build a forest from a Lean list of nodes. -/
def DomForest.ofList : List DomNode → DomForest
  | [] => .nil
  | n :: ns => .cons n (DomForest.ofList ns)

mutual

/-- The node and all its descendants in document (pre-order) order. -/
def preNode : DomNode → List DomNode
  | .mk c kids => .mk c kids :: preNodesOf kids

/-- All nodes of a forest in document (pre-order) order. -/
def preNodesOf : DomForest → List DomNode
  | .nil => []
  | .cons n rest => preNode n ++ preNodesOf rest

end

/-- All nodes of a fragment in document (pre-order) order. -/
def preNodes (frag : DomForest) : List DomNode :=
  preNodesOf frag

/-- The name string interpolated into the selector
`[data-blapy-container-name="..."]`: a missing attribute is the `null`
object, which string-concatenates to `"null"`. -/
def selName (c : Container) : String :=
  match c.name with
  | some s => s
  | none => "null"

/-- `$(pageContent).filter(sel).add($(pageContent).find(sel)).first()`:
`.add` merges the direct and descendant matches in document order, so the
result is the first node in pre-order whose name attribute equals the
selector name. -/
def findBlapyContainer (nm : String) (frag : DomForest) :
    Option DomNode :=
  (preNodes frag).find? (fun n => n.container.name = some nm)

/-- Replace the first pre-order node matching `nm` by `f` of it (the
in-place mutations the handler applies to the matched fragment node). -/
def replaceFirstMatch (nm : String) (f : DomNode → DomNode) :
    DomForest → DomForest
  | .nil => .nil
  | .cons (.mk c kids) rest =>
    if c.name = some nm then .cons (f (.mk c kids)) rest
    else if (findBlapyContainer nm kids).isSome then
      .cons (.mk c (replaceFirstMatch nm f kids)) rest
    else .cons (.mk c kids) (replaceFirstMatch nm f rest)

/-- The collaborator functions the merge dispatch calls into. -/
structure MergeEnv where
  /-- `aBlapyContainer.querySelector('xmp.blapybin')?.innerHTML` — CSS
  selection on the matched fragment node (browser collaborator). -/
  qsBlapybin : DomNode → Option String
  /-- HTML parsing performed by `innerHTML` assignment
  (browser collaborator). -/
  parseHTML : String → DomForest
  /-- `JSON.parse` / `JSON5.parse`; `none` is a thrown parse error. -/
  jsonParse : String → Option JVal
  /-- `JSON.stringify`. -/
  jsonStringify : JVal → String
  /-- The effect of `templateManager.processJsonUpdate(tmp, my, incoming)`
  on the live container (its transform pipeline is embedded separately
  above); the first argument is the `xmp.blapybin` content when present. -/
  processJsonUpdate : Option String → Container → Container → Container
  /-- Named animation-plugin update functions
  (`theBlapy.animation[name]`). -/
  plugins : String → Option (Container → Container → Container)

/-- The outcome of merging one live container: the container afterwards
(`none` when the `remove` strategy deleted it) and the
`logger.error` messages emitted. -/
structure MergeOutcome where
  result : Option Container
  errors : List String
deriving DecidableEq

/-- Lines 683-685: a matched fragment node without an id receives the
live container's id. -/
def idFix (my : Container) (c : Container) : Container :=
  if c.id = "" then { c with id := my.id } else c

/-- Lines 691-698: the effective strategy — the incoming node's
`data-blapy-update`, unless the live node requests `update-rule=local` or
the incoming strategy is `json` while the live one is not, in which case
the live node's strategy wins and the update is flagged local. -/
def resolveStrategy (my incoming : Container) : Option String × Bool :=
  let d := incoming.update
  if my.updateRule = some "local" ∨
      (d = some "json" ∧ my.update ≠ some "json") then
    (my.update, true)
  else (d, false)

/-- The fingerprint test of the `update` strategy (line 717):
write only when the incoming `data-blapy-container-content` differs from
the live one or a force-update is requested. -/
def shouldUpdateWrite (incoming my : Container) (force : Bool) : Bool :=
  incoming.content != my.content || force

/-- `Utils.utoa` on a Lean string. -/
def utoaStr (s : String) : Option String :=
  (Utils.utoa (s.data.map Char.toNat)).map
    (fun l => (l.map Char.ofNat).asString)

/-- `Utils.atou` on a Lean string. -/
def atouStr (s : String) : Option String :=
  (Utils.atou (s.data.map Char.toNat)).map
    (fun l => (l.map Char.ofNat).asString)

/-- The strategy dispatch of the merge (lines 715-899), applied to the
live container `my` and the matched fragment container `c2` (after id fix
and optional embedded-binary decode, its fragment node being `node2`).
Returns the outcome for the live container and the fragment node after
the in-place mutations of the dispatch (`insertAdjacentHTML` for
append/prepend). -/
def applyStrategy (env : MergeEnv) (my : Container) (d : Option String)
    (isLocal force : Bool) (bin : Option String) (c2 : Container)
    (node2 : DomNode) : MergeOutcome × DomNode :=
  if d = none ∨ d = some "" ∨ d = some "update" then
    let res := if shouldUpdateWrite c2 my force then
        (if isLocal then { my with innerHTML := c2.innerHTML } else c2)
      else my
    ((⟨some res, []⟩ : MergeOutcome), node2)
  else if d = some "force-update" then
    (⟨some (if isLocal then { my with innerHTML := c2.innerHTML }
            else c2), []⟩, node2)
  else if d = some "append" then
    let c3 := { c2 with innerHTML := my.innerHTML ++ c2.innerHTML }
    let node3 := DomNode.mk c3 (env.parseHTML my.innerHTML ++ node2.children)
    (⟨some (if isLocal then { my with innerHTML := c3.innerHTML }
            else c3), []⟩, node3)
  else if d = some "prepend" then
    let c3 := { c2 with innerHTML := c2.innerHTML ++ my.innerHTML }
    let node3 := DomNode.mk c3 (node2.children ++ env.parseHTML my.innerHTML)
    (⟨some (if isLocal then { my with innerHTML := c3.innerHTML }
            else c3), []⟩, node3)
  else if d = some "json-append" then
    let currentData :=
      match my.jsonDataAttr with
      | none => []
      | some s =>
        if s = "" then []
        else
          match env.jsonParse s with
          | some (.arr xs) => xs.toList
          | some v => [v]
          | none => []    -- warn logged, start fresh
    let newParsed :=
      match bin with
      | some b => (atouStr b).bind env.jsonParse
      | none => env.jsonParse c2.innerHTML
    match newParsed with
    | none =>
      (⟨some my, ["Failed to parse new JSON data"]⟩, node2)
    | some j0 =>
      let j := if jsTruthy j0 && truthyProp (jget j0 "blapy-data")
        then (jget j0 "blapy-data").getD .null else j0
      let merged := mergeJsonAppend currentData j
        my.appendStrategyAttr my.uniqueKeyAttr (parseIntAttr my.maxItemsAttr)
      let serialized := env.jsonStringify (.arr (JArr.ofList merged))
      let res := env.processJsonUpdate none
        { my with jsonDataAttr := some serialized }
        { c2 with innerHTML := serialized }
      (⟨some res, []⟩, node2)
  else if d = some "replace" then
    (⟨some { my with innerHTML := c2.innerHTML }, []⟩, node2)
  else if d = some "custom" then
    (⟨some my, []⟩, node2)
  else if d = some "remove" then
    (⟨none, []⟩, node2)
  else if d = some "json" then
    (⟨some (env.processJsonUpdate bin my c2), []⟩, node2)
  else
    match d with
    | some nm =>
      match env.plugins nm with
      | some f =>
        if shouldUpdateWrite c2 my force ||
            c2.forceUpdateAttr == some "true" then
          (⟨some (f my c2), []⟩, node2)
        else (⟨some my, []⟩, node2)
      | none => (⟨some my, [nm ++ " does not exist"]⟩, node2)
    | none => (⟨some my, []⟩, node2)

/-- Merge one live container against the fetched fragment — the body of
the `forEach` over `querySelectorAll('[data-blapy-container]')` in
`ProcessPageChange.pageLoaded` (lines 644-918).  Returns the merge
outcome for the live container together with the fragment (whose first
matching node the handler mutates in place: id fix, embedded-binary
decode, `insertAdjacentHTML` for append/prepend).  Registration of
timers/visibility observers and the before/after-change notifications
have no effect on the container state and are not modelled; the
`doCustomChange`/`Blapy_doCustomChange` callbacks of the `custom`
strategy belong to collaborator code. -/
def mergeOne (env : MergeEnv) (aObjectId : Option String) (force : Bool)
    (my : Container) (frag : DomForest) :
    MergeOutcome × DomForest :=
  match findBlapyContainer (selName my) frag with
  | none => (⟨some my, []⟩, frag)
  | some matched =>
    let mc := matched.container
    -- `data-blapy-applyon` allow-list (skip when the triggering instance
    -- id is not listed; `$.inArray(undefined, ...)` is never found)
    let allowed :=
      match mc.applyon with
      | none => true
      | some s =>
        match aObjectId with
        | some o => (jsSplit "," s).contains o
        | none => false
    if !allowed then (⟨some my, []⟩, frag)
    else
      let c1 := idFix my mc
      let node1 := DomNode.mk c1 matched.children
      let d := (resolveStrategy my c1).1
      let isLocal := (resolveStrategy my c1).2
      let bin := env.qsBlapybin node1
      let fragWith := fun (n : DomNode) =>
        replaceFirstMatch (selName my) (fun _ => n) frag
      -- embedded-binary pre-decode (lines 701-706), for strategies ≠ json
      match (if d = some "json" then none else bin) with
      | some b =>
        match atouStr b with
        | none =>
          -- `atou` threw: the async callback aborts; only the id fix
          -- reached the fragment
          (⟨some my, []⟩, fragWith node1)
        | some dec =>
          let c2 := { c1 with innerHTML := dec }
          let out := applyStrategy env my d isLocal force bin c2
            (DomNode.mk c2 (env.parseHTML dec))
          (out.1, fragWith out.2)
      | none =>
        let out := applyStrategy env my d isLocal force bin c1 node1
        (out.1, fragWith out.2)

/-- The whole merge loop: each live container of the static snapshot is
merged in turn, threading the (possibly mutated) fragment. -/
def processPageChange (env : MergeEnv) (aObjectId : Option String)
    (force : Bool) : List Container → DomForest →
    List MergeOutcome × DomForest
  | [], frag => ([], frag)
  | c :: cs, frag =>
    let r := mergeOne env aObjectId force c frag
    let rs := processPageChange env aObjectId force cs r.2
    (r.1 :: rs.1, rs.2)

/-! ## `Blapy.embedHTMLPage` (src/core/Blapy2.js, lines 1121-1156) -/

/-- `Blapy.embedHTMLPage(aHtmlSource, aBlapyBlockIdName)`: find the live
container by name (first match under the root); if absent log an error
and return nothing.  Otherwise clone the block (the live DOM node is not
touched: the mutations are applied to a detached copy built from
`outerHTML`), replace the clone's content by the base64-embedded source,
append `'-' + Date.now()` to its `data-blapy-container-content`
(an unset attribute contributes `''`), and drop its id.  The first
component of the result is the (unchanged) live container registry, the
second the returned embedded block.  `btoa` cannot throw here because
UTF-8 code units are below 0x100, so the encoder's `getD ""` branch is
unreachable. -/
def embedHTMLPage (root : List Container) (aHtmlSource : String)
    (aBlapyBlockIdName : String) (now : Nat) :
    List Container × Option Container :=
  match root.find? (fun c => c.name = some aBlapyBlockIdName) with
  | none => (root, none)
  | some blk =>
    let encodedSource :=
      "<xmp class=\"blapybin\">" ++ (utoaStr aHtmlSource).getD "" ++ "</xmp>"
    let currentContent := blk.content.getD ""
    let nb := { blk with
      innerHTML := encodedSource,
      content := some (currentContent ++ "-" ++ toString now),
      id := "" }
    (root, some nb)

/-! ## Concrete fixtures for witnesses, counterexamples and scenarios -/

/-- A collaborator environment with inert collaborators, used by the
witnesses (the theorems hold for every environment). -/
def wEnv : MergeEnv where
  qsBlapybin := fun _ => none
  parseHTML := fun _ => .nil
  jsonParse := fun _ => none
  jsonStringify := fun _ => ""
  processJsonUpdate := fun _ _ c => c
  plugins := fun _ => none

/-- A live container with the `update` fingerprint `v1`. -/
def wMy7 : Container :=
  { name := some "blockA", content := some "v1", id := "a1" }

/-- An incoming fragment container with the same name and fingerprint. -/
def wInc7 : Container :=
  { name := some "blockA", content := some "v1", update := some "update" }

/-- A fragment containing only the `blockA` match. -/
def wFrag7 : DomForest := .cons (.mk wInc7 .nil) .nil

/-- A live container whose name has no match in `wFrag8`. -/
def wMy8 : Container := { name := some "missing", id := "m1" }

/-- A second live container that does have a match in `wFrag8`. -/
def wOther8 : Container :=
  { name := some "blockB", content := some "x", id := "b1" }

/-- The incoming fragment node matching `wOther8`. -/
def wInc8 : Container :=
  { name := some "blockB", content := some "y", update := some "update" }

/-- A fragment containing only the `blockB` match. -/
def wFrag8 : DomForest := .cons (.mk wInc8 .nil) .nil

/-- The live container for the `embedHTMLPage` witness. -/
def wBlk10 : Container :=
  { name := some "blockC", content := some "v7", id := "c1" }

/-- The live registry for the `embedHTMLPage` witness. -/
def wRoot10 : List Container := [wBlk10]

/-- The dataset of the search-filter scenario. -/
def c9dataset : JVal := jarr
  [jobj [("id", .num 1), ("status", .str "active")],
   jobj [("id", .num 2), ("status", .str "inactive")],
   jobj [("id", .num 3), ("status", .str "active")]]

/-- The item `A` of the append scenario. -/
def itemA : JVal := jobj [("v", .str "A")]

/-- The item `B` of the append scenario. -/
def itemB : JVal := jobj [("v", .str "B")]

/-- The item `C` of the append scenario. -/
def itemC : JVal := jobj [("v", .str "C")]

/-! ## Shared lemmas -/

theorem JArr.toList_ofList (xs : List JVal) : (JArr.ofList xs).toList = xs := by
  induction xs with
  | nil => rfl
  | cons x xs ih => simp [JArr.ofList, JArr.toList, ih]

theorem JObj.lookup_set_same :
    ∀ (fs : JObj) (k : String) (v : JVal), (fs.set k v).lookup k = some v
  | .nil, k, v => by simp [JObj.set, JObj.lookup]
  | .cons a b fs, k, v => by
    by_cases h : a = k <;>
      simp [JObj.set, JObj.lookup, h, JObj.lookup_set_same fs k v]

theorem JObj.lookup_set_other :
    ∀ (fs : JObj) (k : String) (v : JVal) (k2 : String), k2 ≠ k →
      (fs.set k v).lookup k2 = fs.lookup k2
  | .nil, k, v, k2, h => by
    simp [JObj.set, JObj.lookup, Ne.symm h]
  | .cons a b fs, k, v, k2, h => by
    by_cases hak : a = k
    · subst hak
      simp [JObj.set, JObj.lookup, Ne.symm h]
    · simp [JObj.set, JObj.lookup, hak,
        JObj.lookup_set_other fs k v k2 h]

theorem truthyPrim_jsTruthy (v : JVal) (h : truthyPrim v = true) :
    jsTruthy v = true := by
  cases v <;> simp_all [truthyPrim, jsTruthy]

theorem strictEqPrim_self (v : JVal) (h : truthyPrim v = true) :
    strictEqPrim v v = true := by
  cases v <;> simp_all [truthyPrim, strictEqPrim]

/-- The counting predicate of `countIdEq` holds exactly when the entry's
value at `"id"` is `idv`. -/
theorem countIdEq_pred_iff (e idv : JVal) :
    (((jget e "id").map (JVal.beq · idv)).getD false = true) ↔
      jget e "id" = some idv := by
  cases h : jget e "id" <;> simp [JVal.beq, h]

theorem countIdEq_le_of_sublist (idv : JVal) {l₁ l₂ : List JVal}
    (h : l₁.Sublist l₂) : countIdEq l₁ idv ≤ countIdEq l₂ idv :=
  h.countP_le _

theorem existsMatch_of_mem (cur : List JVal) (x idv e : JVal)
    (he : e ∈ cur) (hide : jget e "id" = some idv)
    (hidx : jget x "id" = some idv) (hp : truthyPrim idv = true) :
    existsMatch "id" cur x = true := by
  unfold existsMatch
  rw [List.any_eq_true]
  refine ⟨e, he, ?_⟩
  simp [hide, hidx, truthyProp, truthyPrim_jsTruthy _ hp,
    strictEqPrim_self _ hp]

/-- After one `unique` merge on key `id`, an item with a truthy primitive
id cannot raise the number of entries with that id above one, as long as
it was at most one before. -/
theorem countIdEq_merge_le (cur : List JVal) (x idv : JVal)
    (mi : Option Int) (hid : jget x "id" = some idv)
    (hp : truthyPrim idv = true) (hcur : countIdEq cur idv ≤ 1) :
    countIdEq (mergeJsonAppend cur x (some "unique") (some "id") mi) idv
      ≤ 1 := by
  obtain ⟨fs, rfl⟩ : ∃ fs, x = .obj fs := by
    cases x <;> simp [jget] at hid
    exact ⟨_, rfl⟩
  have hraw : mergeJsonAppendRaw cur (.obj fs) (some "unique") (some "id")
      = (if existsMatch "id" cur (.obj fs) then cur
         else cur ++ [JVal.obj fs]) := by
    simp [mergeJsonAppendRaw, attrOr, toItems, uniqueFold]
  have hbound : countIdEq (mergeJsonAppendRaw cur (.obj fs)
      (some "unique") (some "id")) idv ≤ 1 := by
    rw [hraw]
    by_cases hex : existsMatch "id" cur (.obj fs) = true
    · simpa [hex] using hcur
    · have hzero : countIdEq cur idv = 0 := by
        by_contra hne
        have hpos : 0 < countIdEq cur idv := Nat.pos_of_ne_zero hne
        rw [countIdEq, List.countP_pos_iff] at hpos
        obtain ⟨e, he, hpe⟩ := hpos
        exact hex (existsMatch_of_mem cur (.obj fs) idv e he
          ((countIdEq_pred_iff e idv).mp hpe) hid hp)
      have hone : countIdEq (cur ++ [JVal.obj fs]) idv = 1 := by
        rw [countIdEq, List.countP_append]
        rw [countIdEq] at hzero
        simp [hzero, List.countP_cons, (countIdEq_pred_iff (.obj fs) idv).mpr hid]
      simp [hex, hone]
  unfold mergeJsonAppend
  cases mi with
  | none => exact hbound
  | some m =>
    dsimp only
    split
    · split
      · exact le_trans (countIdEq_le_of_sublist idv (List.take_sublist _ _))
          hbound
      · exact le_trans (countIdEq_le_of_sublist idv (List.drop_sublist _ _))
          hbound
    · exact hbound

/-! ## Claim theorems -/

/-- C1: for the string "é" (code point 233, a non-ASCII UTF-8 character),
decoding the embedded-binary payload encoding does NOT return the string
unchanged: `utoa` emits the base64 of the UTF-8 bytes 195, 169, and
`atou` — `decodeURIComponent` applied to the raw latin-1 byte string,
which contains no `%` escape — returns those two bytes as the
two-character string "Ã©" instead of restoring "é". -/
theorem c1_utf8_roundtrip_fails :
    (Utils.utoa [233]).bind Utils.atou = some [195, 169] ∧
    some [195, 169] ≠ some [233] :=
  ⟨by decide, by decide⟩

/-- C2: when a named post-processing function returns a non-object
result, the application is NOT a no-op keeping the previous dataset: the
source saves `previousJsonDataObj = jsonFeatures`, so the pipeline value
becomes the JSON parser object.  Here the function `f` returns the string
"oops" on the dataset `[{a: 1}]`, and the pipeline ends at the parser
reference rather than the dataset. -/
theorem c2_processdata_restores_parser_object :
    applyProcessDataFunctions
        (fun n => if n = "f" then
          some (fun _ => .data (.str "oops")) else none)
        (some "f") (.data (jarr [jobj [("a", .num 1)]])) = .parserRef ∧
      PipeVal.parserRef ≠ .data (jarr [jobj [("a", .num 1)]]) :=
  ⟨rfl, by decide⟩

/-- C9: the search step on the dataset
`[{id:1,status:"active"},{id:2,status:"inactive"},{id:3,status:"active"}]`
with filter `status==active` returns exactly the objects with ids 1 and
3, in their original relative order, with no duplicates. -/
theorem c9_search_filter_scenario :
    applyInitSearch c9dataset (some "status==active") = jarr
      [jobj [("id", .num 1), ("status", .str "active")],
       jobj [("id", .num 3), ("status", .str "active")]] := by
  decide

/-- C3 (counterexample): creating an Instance with a missing root element
does not report through logging and an error notification — the
constructor throws (`Except.error` models the thrown `Error`, which no
caller of the constructor catches, so it reaches collaborator code
uncaught). -/
theorem c3_counterexample :
    blapyConstructorValidate (fun _ => none) BlapyArg.nullish =
      .error "Blapy needs a valid DOM element" := rfl

/-- C3 (amended): creating an Instance with a missing root element, an
element that cannot be found, or an element without an id throws an
`Error` with a descriptive message into the caller's code (no logging or
error notification precedes the throw, and neither `createBlapy` nor the
`HTMLElement.prototype.Blapy` shim catches it). -/
theorem c3_constructor_throws (qs : String → Option DomElement)
    (arg : BlapyArg) (h : configErrorArg qs arg) :
    ∃ msg, blapyConstructorValidate qs arg = .error msg := by
  rcases h with rfl | ⟨s, rfl, hs⟩ | ⟨s, e, rfl, hs, he⟩ | ⟨e, rfl, he⟩
  · exact ⟨_, rfl⟩
  · exact ⟨"Element not found: " ++ s, by
      simp [blapyConstructorValidate, hs]⟩
  · exact ⟨"Blapy needs an element with an ID", by
      simp [blapyConstructorValidate, hs, he]⟩
  · exact ⟨"Blapy needs an element with an ID", by
      simp [blapyConstructorValidate, he]⟩

/-- Witness for the amended C3 theorem at the concrete missing-element
input. -/
theorem c3_constructor_throws_witness :
    ∃ msg, blapyConstructorValidate (fun _ => none) BlapyArg.nullish =
      .error msg :=
  c3_constructor_throws (fun _ => none) BlapyArg.nullish (Or.inl rfl)

/-- C5 (counterexample): with append strategy `unique` and unique key
`id`, merging the same incoming item `{id: 0}` twice DOES produce a
duplicate, because the duplicate test requires both id values to be
truthy and `0` is falsy: after the second merge the accumulated array
holds two entries whose value at `id` is `0`. -/
theorem c5_counterexample :
    mergeJsonAppend
        (mergeJsonAppend [] (jobj [("id", .num 0)])
          (some "unique") (some "id") none)
        (jobj [("id", .num 0)]) (some "unique") (some "id") none
      = [jobj [("id", .num 0)], jobj [("id", .num 0)]] ∧
    countIdEq
        (mergeJsonAppend
          (mergeJsonAppend [] (jobj [("id", .num 0)])
            (some "unique") (some "id") none)
          (jobj [("id", .num 0)]) (some "unique") (some "id") none)
        (.num 0) = 2 :=
  ⟨by decide, by decide⟩

/-- C5 (amended): for every accumulated array holding at most one entry
with the item's id, and every incoming item whose value at key `id` is a
truthy primitive (a nonzero number, a non-empty string, or `true`),
performing the json-append merge with strategy `unique` and key `id`
twice with that item never produces a duplicate: after the second merge
the array still holds at most one entry whose value at `id` equals the
item's id (items with falsy ids — `0`, `""`, `false`, `null` or missing —
can be duplicated, as the counterexample shows). -/
theorem c5_unique_no_duplicate (cur : List JVal) (x idv : JVal)
    (mi : Option Int) (hid : jget x "id" = some idv)
    (hp : truthyPrim idv = true) (hcur : countIdEq cur idv ≤ 1) :
    countIdEq
      (mergeJsonAppend
        (mergeJsonAppend cur x (some "unique") (some "id") mi)
        x (some "unique") (some "id") mi) idv ≤ 1 :=
  countIdEq_merge_le _ _ _ _ hid hp
    (countIdEq_merge_le _ _ _ _ hid hp hcur)

/-- Witness for the amended C5 theorem at the concrete item `{id: 7}`. -/
theorem c5_unique_no_duplicate_witness :
    countIdEq
      (mergeJsonAppend
        (mergeJsonAppend [] (jobj [("id", .num 7)])
          (some "unique") (some "id") none)
        (jobj [("id", .num 7)]) (some "unique") (some "id") none)
      (.num 7) ≤ 1 :=
  c5_unique_no_duplicate [] (jobj [("id", .num 7)]) (.num 7) none
    (by decide) (by decide) (by decide)

/-- C6: for every json-append merge with a max-items cap N > 0, the
accumulated array is trimmed from the end opposite the insertion side —
the `start` strategy keeps the first N items of the raw merge (trimming
the tail), every other strategy keeps the last N items (trimming the
head) — so the result never exceeds N items and the newly inserted side
is retained; in particular, strategy `start` with cap 2, existing `[A,B]`
and incoming `[C]` yields `[C,A]`. -/
theorem c6_max_items_trim (cur : List JVal) (new : JVal)
    (strategyAttr keyAttr : Option String) (m : Int) (hm : 0 < m) :
    ((mergeJsonAppend cur new strategyAttr keyAttr (some m)).length ≤
        m.toNat ∧
     (attrOr strategyAttr "end" = "start" →
       mergeJsonAppend cur new strategyAttr keyAttr (some m)
         = (mergeJsonAppendRaw cur new strategyAttr keyAttr).take m.toNat) ∧
     (attrOr strategyAttr "end" ≠ "start" →
       mergeJsonAppend cur new strategyAttr keyAttr (some m)
         = (mergeJsonAppendRaw cur new strategyAttr keyAttr).drop
             ((mergeJsonAppendRaw cur new strategyAttr keyAttr).length -
               m.toNat))) ∧
    mergeJsonAppend [itemA, itemB] (jarr [itemC]) (some "start") none
        (some 2)
      = [itemC, itemA] := by
  have hm0 : (m != 0) = true := by simp [bne_iff_ne, hm.ne']
  have hmp : decide (m > 0) = true := by simp [hm]
  refine ⟨?_, by decide⟩
  unfold mergeJsonAppend
  dsimp only
  by_cases hlen :
      ((mergeJsonAppendRaw cur new strategyAttr keyAttr).length : Int) > m
  · rw [if_pos (by simp [hm0, hmp, hlen])]
    by_cases hs : attrOr strategyAttr "end" = "start"
    · rw [if_pos hs]
      refine ⟨?_, fun _ => rfl, fun hns => absurd hs hns⟩
      simp
    · rw [if_neg hs]
      refine ⟨?_, fun hss => absurd hss hs, fun _ => rfl⟩
      rw [List.length_drop]
      omega
  · rw [if_neg (by simp [hlen])]
    have hle :
        (mergeJsonAppendRaw cur new strategyAttr keyAttr).length ≤
          m.toNat := by
      omega
    refine ⟨hle, fun _ => (List.take_of_length_le hle).symm, fun _ => ?_⟩
    rw [Nat.sub_eq_zero_of_le hle, List.drop_zero]

/-- Witness for the C6 theorem at the scenario inputs
(`start`, cap 2, `[A,B]` ++ `[C]`). -/
theorem c6_max_items_trim_witness :
    ((mergeJsonAppend [itemA, itemB] (jarr [itemC]) (some "start") none
        (some 2)).length ≤ (2 : Int).toNat ∧
     (attrOr (some "start") "end" = "start" →
       mergeJsonAppend [itemA, itemB] (jarr [itemC]) (some "start") none
           (some 2)
         = (mergeJsonAppendRaw [itemA, itemB] (jarr [itemC]) (some "start")
             none).take (2 : Int).toNat) ∧
     (attrOr (some "start") "end" ≠ "start" →
       mergeJsonAppend [itemA, itemB] (jarr [itemC]) (some "start") none
           (some 2)
         = (mergeJsonAppendRaw [itemA, itemB] (jarr [itemC]) (some "start")
             none).drop
             ((mergeJsonAppendRaw [itemA, itemB] (jarr [itemC])
               (some "start") none).length - (2 : Int).toNat))) ∧
    mergeJsonAppend [itemA, itemB] (jarr [itemC]) (some "start") none
        (some 2)
      = [itemC, itemA] :=
  c6_max_items_trim [itemA, itemB] (jarr [itemC]) (some "start") none 2
    (by decide)

/-- C10: for every `embedHTMLPage` call naming a container that exists
under the root (first match in document order), the returned embedded
block carries a `data-blapy-container-content` equal to the live
container's value (empty string when unset) with `-` plus the timestamp
appended; that fingerprint always strictly differs from the live one, so
the `update`-strategy fingerprint check (`shouldUpdateWrite`) always
requests the write for the embedded response; and the live registry is
not modified by the call. -/
theorem c10_embed_fingerprint (root : List Container) (src nm : String)
    (now : Nat) (blk : Container)
    (hfind : root.find? (fun c => c.name = some nm) = some blk) :
    (embedHTMLPage root src nm now).1 = root ∧
    ∃ nb, (embedHTMLPage root src nm now).2 = some nb ∧
      nb.content = some (blk.content.getD "" ++ "-" ++ toString now) ∧
      nb.content ≠ blk.content ∧
      shouldUpdateWrite nb blk false = true := by
  have hne : some (blk.content.getD "" ++ "-" ++ toString now) ≠
      blk.content := by
    cases hc : blk.content with
    | none => simp
    | some s =>
      simp only [Option.getD_some, ne_eq, Option.some_inj]
      intro h
      have hlen := congrArg String.length h
      have h1 : "-".length = 1 := rfl
      simp only [String.length_append, h1] at hlen
      omega
  unfold embedHTMLPage
  rw [hfind]
  refine ⟨rfl, ?_⟩
  refine ⟨_, rfl, rfl, hne, ?_⟩
  simp [shouldUpdateWrite, bne_iff_ne]
  exact hne

/-- Witness for the C10 theorem on the one-container registry
`wRoot10` at timestamp 5. -/
theorem c10_embed_fingerprint_witness :
    (embedHTMLPage wRoot10 "<p>x</p>" "blockC" 5).1 = wRoot10 ∧
    ∃ nb, (embedHTMLPage wRoot10 "<p>x</p>" "blockC" 5).2 = some nb ∧
      nb.content = some (wBlk10.content.getD "" ++ "-" ++
        toString (5 : Nat)) ∧
      nb.content ≠ wBlk10.content ∧
      shouldUpdateWrite nb wBlk10 false = true :=
  c10_embed_fingerprint wRoot10 "<p>x</p>" "blockC" 5 wBlk10 (by decide)

theorem idFix_content (my c : Container) :
    (idFix my c).content = c.content := by
  unfold idFix; split <;> rfl

/-- Under the `update` strategy (also the default when the incoming node
declares no strategy or an empty one) with an unchanged fingerprint and
no force-update, the dispatch returns the live container untouched and
logs nothing. -/
theorem applyStrategy_update_noop (env : MergeEnv) (my : Container)
    (d : Option String) (isLocal : Bool) (bin : Option String)
    (c2 : Container) (node2 : DomNode)
    (hd : d = none ∨ d = some "" ∨ d = some "update")
    (hfp : c2.content = my.content) :
    (applyStrategy env my d isLocal false bin c2 node2).1 =
      ⟨some my, []⟩ := by
  unfold applyStrategy
  rw [if_pos hd]
  simp [shouldUpdateWrite, hfp]

/-- C7: for every container whose effective update strategy is `update`
(the default, including a missing or empty `data-blapy-update`), if the
incoming fragment node's fingerprint equals the live container's and
force-update is not set, the merge leaves the live container completely
unchanged — no content or wrapper write occurs, for every collaborator
environment. -/
theorem c7_update_unchanged_noop (env : MergeEnv) (aid : Option String)
    (my : Container) (frag : DomForest) (mnode : DomNode)
    (hfind : findBlapyContainer (selName my) frag = some mnode)
    (hstrat : (resolveStrategy my (idFix my mnode.container)).1 = none ∨
      (resolveStrategy my (idFix my mnode.container)).1 = some "" ∨
      (resolveStrategy my (idFix my mnode.container)).1 = some "update")
    (hfp : mnode.container.content = my.content) :
    (mergeOne env aid false my frag).1 = ⟨some my, []⟩ := by
  obtain ⟨mc, kids⟩ := mnode
  simp only [DomNode.container] at hstrat hfp
  unfold mergeOne
  rw [hfind]
  dsimp only
  split
  · rfl
  · have hfp2 : (idFix my mc).content = my.content := by
      rw [idFix_content]; exact hfp
    split
    · split
      · rfl
      · exact applyStrategy_update_noop _ _ _ _ _ _ _ hstrat hfp2
    · exact applyStrategy_update_noop _ _ _ _ _ _ _ hstrat hfp2

/-- Witness for the C7 theorem: a live `blockA` with fingerprint `v1`
merged against a fragment declaring the `update` strategy and the same
fingerprint stays untouched. -/
theorem c7_update_unchanged_noop_witness :
    (mergeOne wEnv none false wMy7 wFrag7).1 = ⟨some wMy7, []⟩ :=
  c7_update_unchanged_noop wEnv none wMy7 wFrag7 (.mk wInc7 .nil)
    (by decide) (Or.inr (Or.inr (by decide))) (by decide)

/-- A live container whose selector matches nothing in the fragment is
skipped before any mutation or error: the merge step returns it unchanged
together with the untouched fragment. -/
theorem mergeOne_no_match (env : MergeEnv) (aid : Option String)
    (force : Bool) (my : Container) (frag : DomForest)
    (h : findBlapyContainer (selName my) frag = none) :
    mergeOne env aid force my frag = (⟨some my, []⟩, frag) := by
  unfold mergeOne
  rw [h]

theorem findBlapyContainer_eq_none (nm : String) (frag : DomForest)
    (h : ∀ n ∈ preNodes frag, n.container.name ≠ some nm) :
    findBlapyContainer nm frag = none := by
  unfold findBlapyContainer
  rw [List.find?_eq_none]
  intro n hn
  simpa using h n hn

theorem processPageChange_append (env : MergeEnv) (aid : Option String)
    (force : Bool) (xs ys : List Container) (frag : DomForest) :
    processPageChange env aid force (xs ++ ys) frag =
      ((processPageChange env aid force xs frag).1 ++
        (processPageChange env aid force ys
          (processPageChange env aid force xs frag).2).1,
       (processPageChange env aid force ys
          (processPageChange env aid force xs frag).2).2) := by
  induction xs generalizing frag with
  | nil => simp [processPageChange]
  | cons c cs ih => simp [processPageChange, ih]

/-- C8: a live container whose name has no match anywhere in the fragment
(neither top-level nor descendant) when its turn comes is skipped
entirely: it is returned unchanged (not removed) with no error logged and
the fragment untouched, the merge loop records exactly that skip for it,
and every other container is merged exactly as it would have been had the
unmatched container not existed. -/
theorem c8_absent_container_skipped (env : MergeEnv) (aid : Option String)
    (force : Bool) (my : Container) (frag : DomForest)
    (xs ys : List Container)
    (h : ∀ n ∈ preNodes (processPageChange env aid force xs frag).2,
      n.container.name ≠ some (selName my)) :
    mergeOne env aid force my (processPageChange env aid force xs frag).2
        = (⟨some my, []⟩, (processPageChange env aid force xs frag).2) ∧
    (processPageChange env aid force (xs ++ my :: ys) frag).1
        = (processPageChange env aid force xs frag).1 ++
          ⟨some my, []⟩ :: (processPageChange env aid force ys
            (processPageChange env aid force xs frag).2).1 ∧
    (processPageChange env aid force (xs ++ ys) frag).1
        = (processPageChange env aid force xs frag).1 ++
          (processPageChange env aid force ys
            (processPageChange env aid force xs frag).2).1 := by
  have hskip := mergeOne_no_match env aid force my _
    (findBlapyContainer_eq_none _ _ h)
  refine ⟨hskip, ?_, ?_⟩
  · rw [processPageChange_append]
    simp [processPageChange, hskip]
  · rw [processPageChange_append]

/-- Witness for the C8 theorem: the live container `missing` has no match
in a fragment holding only `blockB`, and the sibling container `blockB`
is still merged identically. -/
theorem c8_absent_container_skipped_witness :
    mergeOne wEnv none false wMy8
        (processPageChange wEnv none false [] wFrag8).2
      = (⟨some wMy8, []⟩,
         (processPageChange wEnv none false [] wFrag8).2) ∧
    (processPageChange wEnv none false ([] ++ wMy8 :: [wOther8])
        wFrag8).1
      = (processPageChange wEnv none false [] wFrag8).1 ++
        ⟨some wMy8, []⟩ :: (processPageChange wEnv none false [wOther8]
          (processPageChange wEnv none false [] wFrag8).2).1 ∧
    (processPageChange wEnv none false ([] ++ [wOther8]) wFrag8).1
      = (processPageChange wEnv none false [] wFrag8).1 ++
        (processPageChange wEnv none false [wOther8]
          (processPageChange wEnv none false [] wFrag8).2).1 :=
  c8_absent_container_skipped wEnv none false wMy8 wFrag8 [] [wOther8]
    (by decide)

/-- What `_addBlapyIndices` does to one object element at index `i` of an
array of length `len`: `blapyIndex` is set to `i + 1` exactly when it was
`undefined`/`null`, `blapyFirst` is set to `true` exactly at index 0 and
`blapyLast` exactly at the last index (overwriting any existing value),
and every other field is untouched. -/
theorem annotateElem_obj_spec (len i : Nat) (fs : JObj) :
    ∃ gs, annotateElem len i (.obj fs) = some (.obj gs) ∧
      gs.lookup "blapyIndex" =
        (if isNullOrUndef (fs.lookup "blapyIndex") then some (.num (i + 1))
         else fs.lookup "blapyIndex") ∧
      gs.lookup "blapyFirst" =
        (if i = 0 then some (.bool true) else fs.lookup "blapyFirst") ∧
      gs.lookup "blapyLast" =
        (if i = len - 1 then some (.bool true) else fs.lookup "blapyLast") ∧
      ∀ k, k ≠ "blapyIndex" → k ≠ "blapyFirst" → k ≠ "blapyLast" →
        gs.lookup k = fs.lookup k := by
  have hIF : ("blapyIndex" : String) ≠ "blapyFirst" := by decide
  have hIL : ("blapyIndex" : String) ≠ "blapyLast" := by decide
  have hFI : ("blapyFirst" : String) ≠ "blapyIndex" := by decide
  have hFL : ("blapyFirst" : String) ≠ "blapyLast" := by decide
  have hLI : ("blapyLast" : String) ≠ "blapyIndex" := by decide
  have hLF : ("blapyLast" : String) ≠ "blapyFirst" := by decide
  refine ⟨_, rfl, ?_, ?_, ?_, ?_⟩
  · split_ifs <;>
      simp [JObj.lookup_set_same, JObj.lookup_set_other _ _ _ _ hIF,
        JObj.lookup_set_other _ _ _ _ hIL]
  · split_ifs <;>
      simp [JObj.lookup_set_same, JObj.lookup_set_other _ _ _ _ hFI,
        JObj.lookup_set_other _ _ _ _ hFL]
  · split_ifs <;>
      simp [JObj.lookup_set_same, JObj.lookup_set_other _ _ _ _ hLI,
        JObj.lookup_set_other _ _ _ _ hLF]
  · intro k hkI hkF hkL
    split_ifs <;>
      simp [JObj.lookup_set_other _ _ _ _ hkI,
        JObj.lookup_set_other _ _ _ _ hkF,
        JObj.lookup_set_other _ _ _ _ hkL]

/-- The element loop of `_addBlapyIndices` on a list of objects, with the
absolute running index `i`. -/
theorem annotateList_spec (len : Nat) :
    ∀ (xs : List JVal) (i : Nat),
      (∀ x ∈ xs, ∃ fs, x = JVal.obj fs) →
      ∃ ys, annotateList len i xs = some ys ∧ ys.length = xs.length ∧
        ∀ j fs, xs[j]? = some (.obj fs) →
          ∃ gs, ys[j]? = some (.obj gs) ∧
            gs.lookup "blapyIndex" =
              (if isNullOrUndef (fs.lookup "blapyIndex") then
                some (.num (i + j + 1)) else fs.lookup "blapyIndex") ∧
            gs.lookup "blapyFirst" =
              (if i + j = 0 then some (.bool true)
               else fs.lookup "blapyFirst") ∧
            gs.lookup "blapyLast" =
              (if i + j = len - 1 then some (.bool true)
               else fs.lookup "blapyLast") ∧
            ∀ k, k ≠ "blapyIndex" → k ≠ "blapyFirst" → k ≠ "blapyLast" →
              gs.lookup k = fs.lookup k
  | [], _, _ => ⟨[], rfl, rfl, fun j fs hj => by simp at hj⟩
  | x :: rest, i, hobj => by
    obtain ⟨fs0, rfl⟩ := hobj x (List.mem_cons_self _ _)
    obtain ⟨gs0, hg0, hI, hF, hL, hK⟩ := annotateElem_obj_spec len i fs0
    obtain ⟨ys, hys, hlen, hspec⟩ :=
      annotateList_spec len rest (i + 1)
        (fun y hy => hobj y (List.mem_cons_of_mem _ hy))
    refine ⟨.obj gs0 :: ys, ?_, by simp [hlen], ?_⟩
    · simp [annotateList, hg0, hys]
    · intro j fs hj
      cases j with
      | zero =>
        simp only [List.getElem?_cons_zero, Option.some_inj] at hj
        cases hj
        exact ⟨gs0, by simp, by simpa using hI, by simpa using hF,
          by simpa using hL, hK⟩
      | succ j =>
        simp only [List.getElem?_cons_succ] at hj ⊢
        obtain ⟨gs, hgs, hI2, hF2, hL2, hK2⟩ := hspec j fs hj
        have e1 : i + (j + 1) = i + 1 + j := by omega
        have e2 : ((i : Int) + ((j : Nat) + 1 : Nat) + 1 : Int) =
            ((i + 1 : Nat) : Int) + (j : Nat) + 1 := by push_cast; ring
        rw [e1, e2]
        exact ⟨gs, hgs, hI2, hF2, hL2, hK2⟩

/-- C4 (counterexample): the dataset is NOT normalized to an array before
index annotation — on the plain object `{a: 1}`, `_addBlapyIndices`
writes `blapyIndex = 0` on the object itself (no 1-based index, no
first/last markers), and the result is not an array. -/
theorem c4_counterexample :
    addBlapyIndices (jobj [("a", .num 1)]) =
      some (jobj [("a", .num 1), ("blapyIndex", .num 0)]) ∧
    (addBlapyIndices (jobj [("a", .num 1)])).map JVal.isArr = some false :=
  ⟨by decide, by decide⟩

/-- C4 (amended): no normalization to an array happens before index
annotation (a non-array object instead receives `blapyIndex = 0` on
itself, as the counterexample shows).  For a non-empty array of objects:
every element whose `blapyIndex` is missing or `null` is assigned the
1-based index `j + 1` and an existing index is never overwritten, while
`blapyFirst`/`blapyLast` are set to `true` on the first and last elements
only — unconditionally, overwriting any value already present — and all
other fields are untouched. -/
theorem c4_index_markers (xs : List JVal) (hne : xs ≠ [])
    (hobj : ∀ x ∈ xs, ∃ fs, x = JVal.obj fs) :
    ∃ ys, addBlapyIndices (.arr (JArr.ofList xs)) =
        some (.arr (JArr.ofList ys)) ∧
      ys.length = xs.length ∧
      ∀ j fs, xs[j]? = some (.obj fs) →
        ∃ gs, ys[j]? = some (.obj gs) ∧
          gs.lookup "blapyIndex" =
            (if isNullOrUndef (fs.lookup "blapyIndex") then
              some (.num (j + 1)) else fs.lookup "blapyIndex") ∧
          gs.lookup "blapyFirst" =
            (if j = 0 then some (.bool true) else fs.lookup "blapyFirst") ∧
          gs.lookup "blapyLast" =
            (if j = xs.length - 1 then some (.bool true)
             else fs.lookup "blapyLast") ∧
          ∀ k, k ≠ "blapyIndex" → k ≠ "blapyFirst" → k ≠ "blapyLast" →
            gs.lookup k = fs.lookup k := by
  obtain ⟨x, rest, rfl⟩ := List.exists_cons_of_ne_nil hne
  obtain ⟨ys, hys, hlen, hspec⟩ :=
    annotateList_spec ((x :: rest).length) (x :: rest) 0 hobj
  refine ⟨ys, ?_, hlen, ?_⟩
  · unfold addBlapyIndices
    dsimp only
    rw [JArr.toList_ofList]
    dsimp only
    rw [show rest.length + 1 = (x :: rest).length from by simp, hys]
    rfl
  · intro j fs hj
    obtain ⟨gs, hgs, hI, hF, hL, hK⟩ := hspec j fs hj
    refine ⟨gs, hgs, ?_, ?_, ?_, hK⟩
    · simpa using hI
    · simpa using hF
    · simpa using hL

/-- Witness for the amended C4 theorem on the concrete two-element array
`[{a: 1}, {}]`. -/
theorem c4_index_markers_witness :
    ∃ ys, addBlapyIndices
        (.arr (JArr.ofList [jobj [("a", .num 1)], jobj []])) =
        some (.arr (JArr.ofList ys)) ∧
      ys.length = ([jobj [("a", .num 1)], jobj []] : List JVal).length ∧
      ∀ j fs,
        ([jobj [("a", .num 1)], jobj []] : List JVal)[j]? =
          some (.obj fs) →
        ∃ gs, ys[j]? = some (.obj gs) ∧
          gs.lookup "blapyIndex" =
            (if isNullOrUndef (fs.lookup "blapyIndex") then
              some (.num (j + 1)) else fs.lookup "blapyIndex") ∧
          gs.lookup "blapyFirst" =
            (if j = 0 then some (.bool true) else fs.lookup "blapyFirst") ∧
          gs.lookup "blapyLast" =
            (if j = ([jobj [("a", .num 1)], jobj []] : List JVal).length - 1
             then some (.bool true) else fs.lookup "blapyLast") ∧
          ∀ k, k ≠ "blapyIndex" → k ≠ "blapyFirst" → k ≠ "blapyLast" →
            gs.lookup k = fs.lookup k :=
  c4_index_markers [jobj [("a", .num 1)], jobj []] (by simp)
    (by
      intro y hy
      simp only [List.mem_cons, List.not_mem_nil, or_false] at hy
      rcases hy with rfl | rfl
      · exact ⟨_, rfl⟩
      · exact ⟨_, rfl⟩)

end Blapy2
